import Mathlib

/-!
# Verification of libnetconf's notifications subsystem (src/notifications.c)

A shallow embedding of the NETCONF notifications code: the stream-file
header (`write_fileheader`, `read_fileheader`), the allow-rule store
(`ncntf_event_isallowed`, `ncntf_stream_allow_events`), the publish
pipeline (`ncntf_event_new`), the replay-then-live iterator
(`ncntf_stream_iter_next`) and the subscription validator
(`ncntf_subscription_check`).

C strings are modelled as lists of byte values (`List Nat`, each < 256,
no interior NUL); machine integers are `Nat`/`Int` with explicit
`% 2 ^ w` where overflow matters; fallible operations return `Option`.
The source writes multi-byte integers in native order with `memcpy` and
reads them back the same way; the embedding fixes little-endian, which
is faithful up to the (symmetric) host byte order.
-/

namespace Libnetconf

/-- Bytes of a Lean string literal (all source literals are ASCII). -/
def s2b (s : String) : List Nat := s.data.map Char.toNat

/-- Contents of a C string stored in a buffer: the bytes before the first NUL. -/
def cstr (l : List Nat) : List Nat := l.takeWhile (· ≠ 0)

/-- Little-endian encoding of `n` into `k` bytes (`memcpy` of a `k`-byte integer). -/
def leBytes : Nat → Nat → List Nat
  | 0, _ => []
  | k + 1, n => (n % 256) :: leBytes k (n / 256)

def le16 (n : Nat) : List Nat := leBytes 2 n
def le32 (n : Nat) : List Nat := leBytes 4 n
def le64 (n : Nat) : List Nat := leBytes 8 n

/-- Little-endian decoding of a byte list. -/
def deBytes : List Nat → Nat
  | [] => 0
  | b :: rest => b % 256 + 256 * deBytes rest

theorem leBytes_length (k n : Nat) : (leBytes k n).length = k := by
  induction k generalizing n with
  | zero => rfl
  | succ k ih => simp [leBytes, ih]

theorem deBytes_leBytes (k n : Nat) : deBytes (leBytes k n) = n % 256 ^ k := by
  induction k generalizing n with
  | zero => simp [leBytes, deBytes, Nat.mod_one]
  | succ k ih =>
    simp only [leBytes, deBytes, ih]
    rw [Nat.mod_mod_of_dvd n (dvd_refl 256), pow_succ, mul_comm (256 ^ k) 256,
      Nat.mod_mul]

/-! ## Constants from notifications.c -/

/-- `#define NCNTF_RULES_SIZE (1024*1024)` (notifications.c:74). -/
def NCNTF_RULES_SIZE : Nat := 1024 * 1024

/-- `#define MAGIC_NAME "NCSTREAM"` (notifications.c:105). -/
def MAGIC_NAME : List Nat := s2b "NCSTREAM"

/-- `#define MAGIC_VERSION 0xFF01` (notifications.c:106). -/
def MAGIC_VERSION : Nat := 0xFF01

def EXIT_SUCCESS : Nat := 0
def EXIT_FAILURE : Nat := 1

/-! ## Allow-rule store (notifications.c:965-995, 1334-1360)

The rules region is a 1 MiB zero-padded mapping; the code only ever
looks at its C-string contents (`strdup`, `strrchr`, `strcpy`), so the
embedding carries the contents `rules : List Nat` (the bytes before the
first NUL of the mapping). -/

/-- `strtok(rules, "\n")` token stream: split on newline, dropping empty tokens. -/
def strtok_lines (l : List Nat) : List (List Nat) :=
  (l.splitOn 10).filter (· ≠ [])

/-- `ncntf_event_isallowed` (notifications.c:1334-1360): the event is allowed
iff some newline-delimited token of the rules region equals it exactly. -/
def ncntf_event_isallowed (rules event : List Nat) : Bool :=
  (strtok_lines rules).any (· == event)

/-- Offset just past the last newline of the rules C string
(`end = strrchr(s->rules, '\n'); end = (end == NULL) ? rules : end + 1`,
notifications.c:984-990); 0 if there is no newline. -/
def rules_end_pos (rules : List Nat) : Nat :=
  rules.length - rules.reverse.indexOf 10

/-- `ncntf_stream_allow_events` (notifications.c:965-995) for an existing
stream: if the event is already allowed, nothing changes; otherwise
`strcpy(end, event); strcpy(end + strlen(event), "\n")` writes
`event ++ "\n"` (plus a terminating NUL) at `rules_end_pos`, with **no
capacity check**, and the function returns `EXIT_SUCCESS`.
The result is the return value and the new C-string contents. -/
def ncntf_stream_allow_events (rules event : List Nat) : Nat × List Nat :=
  if ncntf_event_isallowed rules event then (EXIT_SUCCESS, rules)
  else (EXIT_SUCCESS, rules.take (rules_end_pos rules) ++ event ++ [10])

/-- Exclusive end offset of the bytes touched by the unchecked `strcpy`
pair in `ncntf_stream_allow_events` (the entry, its newline, and the
terminating NUL), measured from the start of the 1 MiB mapping. -/
def allow_write_end (rules event : List Nat) : Nat :=
  rules_end_pos rules + event.length + 2

/-! ## Stream file header (notifications.c:354-542) -/

/-- Observable attributes recovered by `read_fileheader`: the raw
name/description chunks (NUL included) plus replay flag and creation time. -/
structure StreamHeader where
  name : List Nat
  desc : List Nat
  replay : Nat
  created : Nat
deriving DecidableEq, Repr

/-- The header buffer prepared by `write_fileheader` (notifications.c:396-437):
magic, version, NUL-terminated name and description with 16-bit
length-prefixes, replay flag byte, 64-bit creation time. -/
def write_fileheader_buffer (name : List Nat) (desc : Option (List Nat))
    (replay created : Nat) : List Nat :=
  MAGIC_NAME ++ le16 MAGIC_VERSION
    ++ le16 (name.length + 1) ++ name ++ [0]
    ++ (match desc with
        | some d => le16 (d.length + 1) ++ d ++ [0]
        | none => le16 1 ++ [0])
    ++ [replay % 256] ++ le64 created

/-- The bytes that `write_fileheader` actually puts in the file: line 445
executes `write(s->fd_events, &header, offset)`, i.e. it writes `offset`
bytes starting at the **address of the pointer variable** `header`, not
at the buffer it points to. `stack` models the machine's memory at
`&header` (the 8 pointer bytes followed by adjacent stack memory). -/
def write_fileheader_filebytes (name : List Nat) (desc : Option (List Nat))
    (replay created : Nat) (stack : List Nat) : List Nat :=
  stack.take (write_fileheader_buffer name desc replay created).length

/-- A `read(fd, buf, k)` that must deliver all `k` bytes: the reader treats
`r <= 0` as failure, and header fields are always fully resident in the
files the claims are about. -/
def readBytes (k : Nat) (f : List Nat) : Option (List Nat × List Nat) :=
  if k = 0 then none
  else if k ≤ f.length then some (f.take k, f.drop k) else none

/-- `read_fileheader` (notifications.c:467-542): check the magic, then read
version, name, description, replay flag and creation time; `none` models
both the magic-mismatch `NULL` and the `read_fail` path. -/
def read_fileheader (f : List Nat) : Option StreamHeader :=
  match readBytes 8 f with
  | none => none
  | some (magic, f) =>
    if magic ≠ MAGIC_NAME then none
    else match readBytes 2 f with
    | none => none
    | some (_, f) =>
      match readBytes 2 f with
      | none => none
      | some (len1, f) =>
        match readBytes (deBytes len1) f with
        | none => none
        | some (name, f) =>
          match readBytes 2 f with
          | none => none
          | some (len2, f) =>
            match readBytes (deBytes len2) f with
            | none => none
            | some (desc, f) =>
              match readBytes 1 f with
              | none => none
              | some (rep, f) =>
                match readBytes 8 f with
                | none => none
                | some (cr, _) =>
                  some ⟨name, desc, rep.headD 0, deBytes cr⟩

/-! ## Event publisher `ncntf_event_new` (notifications.c:1408-1885)

The embedding covers the `NCNTF_GENERIC` kind; the other kinds differ
only in how `content` is synthesized before the shared pipeline. -/

/-- `if (etime == -1) etime = time(NULL);` (notifications.c:1739-1741):
only the exact value `-1` selects the current wall clock. -/
def resolve_etime (etime now : Int) : Int :=
  if etime = -1 then now else etime

/-- C conversion of a (possibly negative) `time_t` to `uint64_t`. -/
def to_uint64 (x : Int) : Nat := (x % (2 ^ 64 : Int)).toNat

/-- `etime64 = (uint64_t)etime` after the `-1` substitution
(notifications.c:1752): the timestamp stored in the record and on the bus. -/
def recorded_timestamp (etime now : Int) : Nat :=
  to_uint64 (resolve_etime etime now)

/-- Modelled from the spec: `nc_time2datetime` (implemented outside this
file) renders a timestamp as ISO-8601 text; modelled as an injective
textual rendering of the resolved time. -/
def nc_time2datetime (t : Int) : List Nat := s2b (toString t)

/-- Root element name of the event content, as obtained through
`xmlReadMemory` + `xmlDocGetRootElement` (notifications.c:1755-1765);
the external XML parser is modelled for the well-formed fragments the
publisher synthesizes: the bytes after the leading `<` up to the first
delimiter. -/
def extract_ename (content : List Nat) : Option (List Nat) :=
  match content with
  | 60 :: rest =>
    let nm := rest.takeWhile (fun c => c ≠ 62 && c ≠ 47 && c ≠ 32 && c ≠ 9 && c ≠ 10 && c ≠ 13)
    if nm = [] then none else some nm
  | _ => none

/-- The full record text composed at notifications.c:1769-1774:
XML declaration, `<notification>` envelope with `<eventTime>`, content. -/
def event_record (etime : Int) (content : List Nat) : List Nat :=
  s2b "<?xml version=\"1.0\" encoding=\"UTF-8\"?><notification xmlns=\"urn:ietf:params:xml:ns:netconf:notification:1.0\"><eventTime>"
    ++ nc_time2datetime etime
    ++ s2b "</eventTime>" ++ content ++ s2b "</notification>"

/-- `ftruncate(fd, offset)` on the events file (the file only ever shrinks
back to a previous end offset here). -/
def ftruncate_to (file : List Nat) (offset : Nat) : List Nat := file.take offset

/-- One guarded append of a record to a stream file
(notifications.c:1792-1810): remember the pre-append end offset, then
write length, timestamp and payload as three writes; `fails = some k`
means write `k` returned `-1` after the `EINTR` retries, upon which the
file is truncated back to the remembered offset. -/
def append_record (file : List Nat) (len t : Nat) (payload : List Nat)
    (fails : Option (Fin 3)) : List Nat :=
  let offset := file.length
  match fails with
  | none => file ++ le32 len ++ le64 t ++ payload
  | some k =>
    let written :=
      if k.val = 0 then file
      else if k.val = 1 then file ++ le32 len
      else file ++ le32 len ++ le64 t
    ftruncate_to written offset

/-- One registered stream together with the externally-determined
outcomes of the fallible system calls made for it during a single
`ncntf_event_new` call. -/
structure StreamSt where
  name : List Nat
  replay : Nat
  rules : List Nat
  file : List Nat
  lock_ok : Bool
  append_fail : Option (Fin 3)
  bus_ok : Bool

/-- Process state visible to `ncntf_event_new`. -/
structure EventWorld where
  streams : List StreamSt
  now : Int
  dbus_connected : Bool

/-- D-Bus fan-out loop (notifications.c:1822-1866): streams whose
allow-list rejects the event are skipped (`continue`); the first
failing D-Bus operation jumps to `cleanup_dbus_mut`, aborting the loop
for all remaining streams. Returns the names signalled, in order. -/
def bus_fanout : List StreamSt → List Nat → List (List Nat)
  | [], _ => []
  | s :: rest, ename =>
    if ncntf_event_isallowed s.rules ename then
      if s.bus_ok then s.name :: bus_fanout rest ename else []
    else bus_fanout rest ename

/-- Result of one `ncntf_event_new` call: the C return value, the new
events-file contents of every stream (in registry order), and the
stream names that received a D-Bus `Event` signal. -/
structure EventResult where
  ret : Nat
  files : List (List Nat)
  bus : List (List Nat)
deriving DecidableEq, Repr

/-- `ncntf_event_new` (notifications.c:1408-1885), generic kind: resolve
the timestamp, extract the event name, compose the record, append it to
every replay-enabled stream whose allow-list admits the name (reverting
failed appends), then broadcast to every admitting stream regardless of
the replay flag. `ret` is initialized to `EXIT_SUCCESS` and is **not**
changed by append or bus failures. -/
def ncntf_event_new (w : EventWorld) (etime : Int) (content : Option (List Nat)) :
    EventResult :=
  match content with
  | none => ⟨EXIT_FAILURE, w.streams.map (·.file), []⟩
  | some c =>
    let et := resolve_etime etime w.now
    if et = -1 then ⟨EXIT_FAILURE, w.streams.map (·.file), []⟩
    else
      match extract_ename c with
      | none => ⟨EXIT_FAILURE, w.streams.map (·.file), []⟩
      | some ename =>
        let record := event_record et c
        let len := record.length + 1
        ⟨EXIT_SUCCESS,
         w.streams.map (fun s =>
           if s.replay = 0 then s.file
           else if ncntf_event_isallowed s.rules ename then
             if s.lock_ok then
               append_record s.file len (recorded_timestamp etime w.now) (record ++ [0]) s.append_fail
             else s.file
           else s.file),
         if w.dbus_connected then bus_fanout w.streams ename else []⟩

/-! ## Replay-then-live iterator `ncntf_stream_iter_next` (notifications.c:1134-1321) -/

/-- C cast of the stored `uint64_t` timestamp to (64-bit) `time_t` for
the window comparisons (`(time_t)t`). -/
def toInt64 (t : Nat) : Int :=
  if t % 2 ^ 64 < 2 ^ 63 then (t % 2 ^ 64 : Nat)
  else (t % 2 ^ 64 : Nat) - 2 ^ 64

/-- The two skip conditions applied to a record or bus-message timestamp
(notifications.c:1277-1296 and 1227-1242): before `start`, or after a
set `stop`. -/
def skip_by_window (start stop : Int) (t : Nat) : Bool :=
  (decide (start ≠ -1) && decide (toInt64 t < start))
    || (decide (stop ≠ -1) && decide (stop < toInt64 t))

/-- A stored event record, already decoded from its
`u32 len || u64 timestamp || payload` file encoding. -/
structure FileRec where
  t : Nat
  payload : List Nat
deriving DecidableEq, Repr

/-- The file-reading phase of the `while(1)` loop: skip records outside
the window (the `continue` branches advance the offset past the
payload), stopping at the first admitted record; `none` when the scan
exhausts the remaining records. -/
def replay_scan (start stop : Int) : List FileRec → Option (FileRec × List FileRec)
  | [] => none
  | r :: rest =>
    if skip_by_window start stop r.t then replay_scan start stop rest
    else some (r, rest)

/-- The D-Bus polling phase (notifications.c:1200-1260): pop messages,
discarding those outside the window, until one matches (returned) or
`dbus_connection_pop_message` yields no message (end of stream). -/
def bus_scan (start stop : Int) :
    List (Nat × List Nat) → Option ((Nat × List Nat) × List (Nat × List Nat))
  | [] => none
  | m :: rest =>
    if skip_by_window start stop m.1 then bus_scan start stop rest
    else some (m, rest)

/-- Per-call observable state of the iterator: records between the file
offset and EOF, the thread-local `replay_done` flag, and the pending
bus messages for the subscribed stream. -/
structure IterState where
  recs : List FileRec
  rdone : Bool
  bus : List (Nat × List Nat)
deriving DecidableEq, Repr

/-- What one `ncntf_stream_iter_next` call returns, tagged by the code
path that produced it. -/
inductive IterNext where
  | ntfRecord (t : Nat) (payload : List Nat)
  | replayDoneNtf (t : Int)
  | busEvent (t : Nat) (payload : List Nat)
  | iterEnd
deriving DecidableEq, Repr

/-- `ncntf_stream_iter_next` (notifications.c:1134-1321) for an existing
stream with `replay` flag `replay`: the `stop < start` early return
(lines 1152-1155), the `start == -1` shortcut setting `replay_done`
(lines 1166-1168), the file-replay phase, the one-shot `replayComplete`
synthesis (lines 1183-1197, timestamp `now`), and the bus poll. -/
def ncntf_stream_iter_next (replay : Nat) (st : IterState) (start stop now : Int) :
    IterNext × IterState :=
  if start ≠ -1 ∧ stop ≠ -1 ∧ stop < start then (IterNext.iterEnd, st)
  else
    let rdone := st.rdone || (start == -1)
    if rdone = false ∧ start ≠ -1 ∧ replay = 1 ∧ st.recs ≠ [] then
      match replay_scan start stop st.recs with
      | some p => (IterNext.ntfRecord p.1.t p.1.payload, ⟨p.2, rdone, st.bus⟩)
      | none => (IterNext.replayDoneNtf now, ⟨[], true, st.bus⟩)
    else if rdone = false then
      (IterNext.replayDoneNtf now, ⟨st.recs, true, st.bus⟩)
    else
      match bus_scan start stop st.bus with
      | some p => (IterNext.busEvent p.1.1 p.1.2, ⟨st.recs, rdone, p.2⟩)
      | none => (IterNext.iterEnd, ⟨st.recs, rdone, []⟩)

/-- All records the file-replay phase yields across successive
`ncntf_stream_iter_next` calls, record by record (each call applies
`replay_scan` to the remaining suffix). -/
def replay_all (start stop : Int) : List FileRec → List FileRec
  | [] => []
  | r :: rest =>
    if skip_by_window start stop r.t then replay_all start stop rest
    else r :: replay_all start stop rest

/-! ## Subscription validator `ncntf_subscription_check` (notifications.c:2203-2285) -/

/-- Replies of `ncntf_subscription_check`, by error tag and offending element. -/
inductive SubsResult where
  | replyOk
  | errInvalidValue
  | errMissingElemStartTime
  | errBadElemStopTime
  | errBadElemStartTime
  | errBadElemFilter
  | errOpFailed
deriving DecidableEq, Repr

/-- `ncntf_subscription_check` (notifications.c:2203-2285) after RPC
parsing: `params_ret` is the `ncntf_subscription_get_params` result
(`0` ok, `-2` unparseable filter, anything else operation-failed),
`stream_exists` the registry lookup, and `start`/`stop` the parsed
window with `-1` for "unset". -/
def ncntf_subscription_check (params_ret : Int) (stream_exists : Bool)
    (start stop now : Int) : SubsResult :=
  if params_ret = -2 then SubsResult.errBadElemFilter
  else if params_ret ≠ 0 then SubsResult.errOpFailed
  else if stream_exists = false then SubsResult.errInvalidValue
  else if stop ≠ -1 ∧ start = -1 then SubsResult.errMissingElemStartTime
  else if stop ≠ -1 ∧ start ≠ -1 ∧ start > stop then SubsResult.errBadElemStopTime
  else if start ≠ -1 ∧ start > now then SubsResult.errBadElemStartTime
  else SubsResult.replyOk

/-! ## Theorems -/

/-- C3: Append atomicity on error — during a publish, if any of the three
writes (length, timestamp, payload) of a record to a stream file fails,
the file is truncated back to the end offset it had before the append
began, so the stream file contents are unchanged by the failed append. -/
theorem append_record_failure_reverts_file (file : List Nat) (len t : Nat)
    (payload : List Nat) (k : Fin 3) :
    append_record file len t payload (some k) = file := by
  rcases k with ⟨v, hv⟩
  unfold append_record ftruncate_to
  interval_cases v <;>
    simp [List.take_left]

/-- C10: Early-end edge case — when both `start` and `stop` are set
(different from `-1`) and `stop < start`, `ncntf_stream_iter_next`
returns end-of-stream immediately, before touching the stream file or
the bus, leaving the whole iterator state (file offset, `replay_done`,
pending bus messages) unchanged. -/
theorem iter_next_inverted_window_early_end (replay : Nat) (st : IterState)
    (start stop now : Int) (h1 : start ≠ -1) (h2 : stop ≠ -1) (h3 : stop < start) :
    ncntf_stream_iter_next replay st start stop now = (IterNext.iterEnd, st) := by
  unfold ncntf_stream_iter_next
  rw [if_pos ⟨h1, h2, h3⟩]

theorem iter_next_inverted_window_early_end_witness :
    ncntf_stream_iter_next 1 ⟨[⟨5, []⟩], false, [(7, [])]⟩ 5 3 100
      = (IterNext.iterEnd, ⟨[⟨5, []⟩], false, [(7, [])]⟩) :=
  iter_next_inverted_window_early_end 1 ⟨[⟨5, []⟩], false, [(7, [])]⟩ 5 3 100
    (by decide) (by decide) (by decide)

/-- C8: Live-only subscriptions get no marker — when `start` is unset
(`start = -1`), `ncntf_stream_iter_next` sets `replay_done` immediately,
never consumes a stored record from the stream file, and never returns a
synthesized replayComplete notification: only bus messages (or
end-of-stream) are returned. -/
theorem iter_next_live_only_no_marker (replay : Nat) (st : IterState) (stop now : Int) :
    ((ncntf_stream_iter_next replay st (-1) stop now).2.rdone = true)
    ∧ ((ncntf_stream_iter_next replay st (-1) stop now).2.recs = st.recs)
    ∧ (∀ t p, (ncntf_stream_iter_next replay st (-1) stop now).1 ≠ IterNext.ntfRecord t p)
    ∧ (∀ t, (ncntf_stream_iter_next replay st (-1) stop now).1 ≠ IterNext.replayDoneNtf t) := by
  unfold ncntf_stream_iter_next
  rw [if_neg (by simp)]
  simp only [beq_self_eq_true, Bool.or_true]
  rw [if_neg (by simp), if_neg (by simp)]
  cases h : bus_scan (-1) stop st.bus <;> simp [h]

/-- C9: Subscription validation — for a parsed create-subscription request
(`params_ret = 0`) against an existing stream, the validator answers,
in the code's checking order: missing-element(startTime) when `stopTime`
is set without `startTime`; bad-element(stopTime) when both are set and
`startTime > stopTime`; bad-element(startTime) when `startTime` is set,
lies in the future, and the previous fault does not apply; and ok when
none of the listed faults applies. -/
theorem subscription_check_outcomes (start stop now : Int) :
    ((stop ≠ -1 ∧ start = -1) →
      ncntf_subscription_check 0 true start stop now = SubsResult.errMissingElemStartTime)
    ∧ ((stop ≠ -1 ∧ start ≠ -1 ∧ start > stop) →
      ncntf_subscription_check 0 true start stop now = SubsResult.errBadElemStopTime)
    ∧ ((start ≠ -1 ∧ start > now ∧ ¬(stop ≠ -1 ∧ start > stop)) →
      ncntf_subscription_check 0 true start stop now = SubsResult.errBadElemStartTime)
    ∧ ((¬(stop ≠ -1 ∧ start = -1) ∧ ¬(stop ≠ -1 ∧ start ≠ -1 ∧ start > stop)
        ∧ ¬(start ≠ -1 ∧ start > now)) →
      ncntf_subscription_check 0 true start stop now = SubsResult.replyOk) := by
  refine ⟨fun h => ?_, fun h => ?_, fun h => ?_, fun h => ?_⟩ <;>
    unfold ncntf_subscription_check
  · rw [if_neg (by norm_num), if_neg (by norm_num), if_neg (by simp), if_pos h]
  · rw [if_neg (by norm_num), if_neg (by norm_num), if_neg (by simp),
      if_neg (fun hc => h.2.1 hc.2), if_pos h]
  · rw [if_neg (by norm_num), if_neg (by norm_num), if_neg (by simp),
      if_neg (fun hc => h.1 hc.2), if_neg (fun hc => h.2.2 ⟨hc.1, hc.2.2⟩),
      if_pos ⟨h.1, h.2.1⟩]
  · rw [if_neg (by norm_num), if_neg (by norm_num), if_neg (by simp),
      if_neg h.1, if_neg h.2.1, if_neg h.2.2]

/-- Witness for C9 at the spec's scenario #5: `startTime = 1000`,
`stopTime = 500` yields bad-element(stopTime). -/
theorem subscription_check_outcomes_witness :
    ncntf_subscription_check 0 true 1000 500 2000 = SubsResult.errBadElemStopTime :=
  (subscription_check_outcomes 1000 500 2000).2.1 (by decide)

/-- C5 (amended): the recorded timestamp of a publish equals the
`uint64_t` cast of the override whenever the override differs from `-1`
(in particular it equals the override itself for every non-negative
override below `2^64`), and equals the current wall-clock time exactly
when the override is `-1`. -/
theorem recorded_timestamp_resolution (etime now : Int) :
    (etime ≠ -1 → recorded_timestamp etime now = to_uint64 etime)
    ∧ (0 ≤ etime → etime < 2 ^ 64 → recorded_timestamp etime now = etime.toNat)
    ∧ (etime = -1 → recorded_timestamp etime now = to_uint64 now) := by
  refine ⟨fun h => ?_, fun h1 h2 => ?_, fun h => ?_⟩
  · simp [recorded_timestamp, resolve_etime, h]
  · have hne : etime ≠ -1 := by omega
    have he : etime % (2 ^ 64 : Int) = etime := Int.emod_eq_of_lt h1 h2
    simp only [recorded_timestamp, resolve_etime, if_neg hne, to_uint64]
    rw [he]
  · simp [recorded_timestamp, resolve_etime, h]

theorem recorded_timestamp_resolution_witness :
    recorded_timestamp 5 77 = 5 ∧ recorded_timestamp (-1) 77 = 77 :=
  ⟨(recorded_timestamp_resolution 5 77).2.1 (by decide) (by decide),
   by have h := (recorded_timestamp_resolution (-1) 77).2.2 rfl; simpa [to_uint64] using h⟩

/-- C5 counterexample: with override `etime = -2` (negative but not `-1`)
and current time `1000`, the code keeps the override — the recorded
timestamp is the `uint64_t` cast `2^64 - 2`, not the wall-clock `1000`
the claim requires for every negative override. -/
theorem recorded_timestamp_negative_override_kept :
    recorded_timestamp (-2) 1000 ≠ 1000 ∧ ((-2 : Int) < 0)
      ∧ recorded_timestamp (-2) 1000 = 2 ^ 64 - 2 := by
  refine ⟨?_, by decide, ?_⟩ <;> decide

/-- C1: the header round-trip is broken in the code. Line 445 writes the
bytes at `&header` — the pointer variable itself — instead of the header
buffer, so unless the stack bytes at `&header` happen to spell the
`NCSTREAM` magic, `read_fileheader` rejects the created file and no
attribute (name, description, replay flag, creation time) is
recoverable. -/
theorem write_then_read_fileheader_fails (name : List Nat) (desc : Option (List Nat))
    (replay created : Nat) (stack : List Nat) (h : stack.take 8 ≠ MAGIC_NAME) :
    read_fileheader (write_fileheader_filebytes name desc replay created stack) = none := by
  have hL8 : 8 ≤ (write_fileheader_buffer name desc replay created).length := by
    rcases desc with _ | d <;>
      simp [write_fileheader_buffer, MAGIC_NAME, s2b, le16, le64, leBytes]
  have hfb : write_fileheader_filebytes name desc replay created stack
      = stack.take (write_fileheader_buffer name desc replay created).length := rfl
  rw [hfb]
  set L := (write_fileheader_buffer name desc replay created).length with hLdef
  cases hrb : readBytes 8 (stack.take L) with
  | none => simp [read_fileheader, hrb]
  | some p =>
    obtain ⟨magic, rest⟩ := p
    have hm : magic = stack.take 8 := by
      unfold readBytes at hrb
      rw [if_neg (by norm_num)] at hrb
      by_cases hc : 8 ≤ (stack.take L).length
      · rw [if_pos hc] at hrb
        have := (Option.some.injEq _ _).mp hrb
        have hmg : (stack.take L).take 8 = magic := congrArg Prod.fst this
        rw [← hmg, List.take_take, Nat.min_eq_left hL8]
      · rw [if_neg hc] at hrb
        exact absurd hrb (by simp)
    have hne : magic ≠ MAGIC_NAME := by rw [hm]; exact h
    simp [read_fileheader, hrb, hne]

theorem write_then_read_fileheader_fails_witness :
    read_fileheader (write_fileheader_filebytes [65] (some [100]) 1 0 (List.replicate 40 7))
      = none :=
  write_then_read_fileheader_fails [65] (some [100]) 1 0 (List.replicate 40 7) (by decide)

/-- Had line 445 written the prepared buffer itself, the attributes would
round-trip: parsing the buffer recovers name, description, replay flag
and creation time exactly (shown here on a concrete stream). -/
theorem write_fileheader_buffer_parses :
    read_fileheader (write_fileheader_buffer (s2b "NETCONF") (some (s2b "base")) 1 1234)
      = some ⟨s2b "NETCONF" ++ [0], s2b "base" ++ [0], 1, 1234⟩ := by decide

/-- C4: `ncntf_stream_allow_events` has no capacity check. On a rule store
whose remaining free space is smaller than the new entry (here: an empty
store and an entry of 1048575 bytes, so entry + newline + NUL exceed the
1 MiB region), the code still returns `EXIT_SUCCESS`, changes the store,
and the `strcpy` pair touches bytes past `NCNTF_RULES_SIZE` — instead of
failing with `Exhausted` and leaving the region unchanged as specified. -/
theorem allow_events_missing_capacity_check (event : List Nat)
    (h : NCNTF_RULES_SIZE < event.length + 2) :
    ncntf_event_isallowed [] event = false
    ∧ (ncntf_stream_allow_events [] event).1 = EXIT_SUCCESS
    ∧ (ncntf_stream_allow_events [] event).2 = event ++ [10]
    ∧ NCNTF_RULES_SIZE < allow_write_end [] event := by
  refine ⟨rfl, rfl, rfl, ?_⟩
  have he : allow_write_end [] event = rules_end_pos [] + event.length + 2 := rfl
  have h0 : rules_end_pos [] = 0 := rfl
  omega

theorem allow_events_missing_capacity_check_witness :
    ncntf_event_isallowed [] (List.replicate 1048575 97) = false
    ∧ (ncntf_stream_allow_events [] (List.replicate 1048575 97)).1 = EXIT_SUCCESS
    ∧ (ncntf_stream_allow_events [] (List.replicate 1048575 97)).2
        = List.replicate 1048575 97 ++ [10]
    ∧ NCNTF_RULES_SIZE < allow_write_end [] (List.replicate 1048575 97) :=
  allow_events_missing_capacity_check (List.replicate 1048575 97)
    (by rw [List.length_replicate]; norm_num [NCNTF_RULES_SIZE])

/-- C7: Replay window filtering. The file-replay phase of
`ncntf_stream_iter_next` (whose record step is `replay_scan`) yields,
across successive calls, exactly the stored records whose timestamp `t`
satisfies `start ≤ t` and, when `stop` is set, `t ≤ stop`, skipping all
records outside the window; with records at timestamps 100, 200, 300
and window `start = 150, stop = 250` exactly the record at 200 is
yielded. -/
theorem replay_window_filter :
    (∀ (start stop : Int) (l : List FileRec), replay_all start stop l
        = (match replay_scan start stop l with
           | none => []
           | some p => p.1 :: replay_all start stop p.2))
    ∧ (∀ (start stop : Int) (l : List FileRec), start ≠ -1 →
        replay_all start stop l
          = l.filter (fun r => decide (start ≤ toInt64 r.t)
              && (decide (stop = -1) || decide (toInt64 r.t ≤ stop))))
    ∧ replay_all 150 250 [⟨100, []⟩, ⟨200, []⟩, ⟨300, []⟩] = [⟨200, []⟩] := by
  refine ⟨?_, ?_, by decide⟩
  · intro start stop l
    induction l with
    | nil => rfl
    | cons r rest ih =>
      by_cases hs : skip_by_window start stop r.t = true
      · simp only [replay_all, replay_scan, if_pos hs]
        exact ih
      · simp only [replay_all, replay_scan, if_neg hs]
  · intro start stop l hstart
    induction l with
    | nil => rfl
    | cons r rest ih =>
      simp only [replay_all, List.filter_cons]
      by_cases hs : skip_by_window start stop r.t = true
      · have hp : (decide (start ≤ toInt64 r.t)
            && (decide (stop = -1) || decide (toInt64 r.t ≤ stop))) = false := by
          simp only [skip_by_window, Bool.or_eq_true, Bool.and_eq_true,
            decide_eq_true_eq] at hs
          rcases hs with ⟨_, h2⟩ | ⟨h1, h2⟩
          · simp [not_le.mpr h2]
          · simp [h1, not_le.mpr h2]
        rw [if_pos hs, hp]
        simpa using ih
      · have hs2 : ¬((start ≠ -1 ∧ toInt64 r.t < start)
            ∨ (stop ≠ -1 ∧ stop < toInt64 r.t)) := by
          simp only [skip_by_window, Bool.or_eq_true, Bool.and_eq_true,
            decide_eq_true_eq] at hs
          exact hs
        push_neg at hs2
        obtain ⟨h1, h2⟩ := hs2
        have hts : start ≤ toInt64 r.t := h1 hstart
        have hp : (decide (start ≤ toInt64 r.t)
            && (decide (stop = -1) || decide (toInt64 r.t ≤ stop))) = true := by
          by_cases hstop : stop = -1
          · simp [hts, hstop]
          · have := h2 hstop
            simp [hts, this]
        rw [if_neg hs, hp]
        simpa using ih

theorem replay_window_filter_witness :
    replay_all 150 250 [⟨100, []⟩, ⟨200, []⟩, ⟨300, []⟩]
      = List.filter (fun r => decide ((150 : Int) ≤ toInt64 r.t)
          && (decide ((250 : Int) = -1) || decide (toInt64 r.t ≤ 250)))
          [⟨100, []⟩, ⟨200, []⟩, ⟨300, []⟩] :=
  replay_window_filter.2.1 150 250 _ (by decide)

/-- A registry with a single stream `A`: replay enabled, allow-list
admitting `x`, empty events file, lock acquired, the first of the three
record writes failing, bus operational. -/
def c2_world : EventWorld :=
  ⟨[⟨s2b "A", 1, s2b "x\n", [], true, some 0, true⟩], 100, true⟩

/-- C2 counterexample: in `c2_world` the only stream is targeted (replay
enabled, event admitted) and its file append fails, yet `ncntf_event_new`
still returns `EXIT_SUCCESS` — the failed write only triggers a `WARN`
and a truncate (notifications.c:1801-1809) and never touches `ret`, so
the claimed "success iff every targeted stream accepted the append" is
false. -/
theorem event_new_success_despite_append_failure :
    extract_ename (s2b "<x/>") = some (s2b "x")
    ∧ (∀ s ∈ c2_world.streams, s.replay ≠ 0
        ∧ ncntf_event_isallowed s.rules (s2b "x") = true
        ∧ s.lock_ok = true ∧ s.append_fail ≠ none)
    ∧ c2_world.streams.length = 1
    ∧ (ncntf_event_new c2_world (-1) (some (s2b "<x/>"))).ret = EXIT_SUCCESS := by
  refine ⟨by decide, by decide, rfl, ?_⟩
  have he : extract_ename (s2b "<x/>") = some (s2b "x") := by decide
  have hn : resolve_etime (-1) c2_world.now ≠ -1 := by decide
  simp only [ncntf_event_new, he, if_neg hn]

/-- C2 (amended): `ncntf_event_new` reports failure only for
synthesis-stage errors (missing content, failed time resolution, failed
event-name extraction). Once the record is composed it returns
`EXIT_SUCCESS` unconditionally — for every combination of per-stream
lock failures, append failures (which are logged and reverted via
truncate) and synchronous bus failures. -/
theorem event_new_ret_independent_of_stream_failures (w : EventWorld) (etime : Int)
    (c nm : List Nat) (h1 : extract_ename c = some nm)
    (h2 : resolve_etime etime w.now ≠ -1) :
    (ncntf_event_new w etime (some c)).ret = EXIT_SUCCESS := by
  simp only [ncntf_event_new, h1, if_neg h2]

theorem event_new_ret_independent_witness :
    (ncntf_event_new c2_world 55 (some (s2b "<x/>"))).ret = EXIT_SUCCESS :=
  event_new_ret_independent_of_stream_failures c2_world 55 (s2b "<x/>") (s2b "x")
    (by decide) (by decide)

/-- Bus fan-out with no D-Bus failure signals exactly the admitting
streams, in registry order, regardless of their replay flags. -/
theorem bus_fanout_all_ok (nm : List Nat) (l : List StreamSt)
    (h : ∀ s ∈ l, s.bus_ok = true) :
    bus_fanout l nm
      = (l.filter (fun s => ncntf_event_isallowed s.rules nm)).map (·.name) := by
  induction l with
  | nil => rfl
  | cons s rest ih =>
    have hs : s.bus_ok = true := h s (by simp)
    have hrest : ∀ a ∈ rest, a.bus_ok = true := fun a ha => h a (by simp [ha])
    by_cases hal : ncntf_event_isallowed s.rules nm = true
    · simp [bus_fanout, hal, hs, List.filter_cons, ih hrest]
    · simp [bus_fanout, List.filter_cons, hal, ih hrest]

/-- C6: Publish fan-out footprint — in a failure-free run (locks
acquired, all three writes succeed, bus connected and operational), the
record is appended to exactly those streams with replay enabled whose
allow-list admits the event name; a bus `Event` message goes to every
admitting stream regardless of its replay flag; and a stream not
admitting the event keeps its file unchanged and receives no bus
message. -/
theorem event_new_fanout_footprint (w : EventWorld) (etime : Int) (c nm : List Nat)
    (h1 : extract_ename c = some nm) (h2 : resolve_etime etime w.now ≠ -1)
    (hok : ∀ s ∈ w.streams, s.lock_ok = true ∧ s.append_fail = none)
    (hbus : ∀ s ∈ w.streams, s.bus_ok = true)
    (hdbus : w.dbus_connected = true) :
    (ncntf_event_new w etime (some c)).files
      = w.streams.map (fun s =>
          if s.replay ≠ 0 ∧ ncntf_event_isallowed s.rules nm = true then
            s.file ++ le32 ((event_record (resolve_etime etime w.now) c).length + 1)
              ++ le64 (recorded_timestamp etime w.now)
              ++ (event_record (resolve_etime etime w.now) c ++ [0])
          else s.file)
    ∧ (ncntf_event_new w etime (some c)).bus
      = (w.streams.filter (fun s => ncntf_event_isallowed s.rules nm)).map (·.name) := by
  have hres : ncntf_event_new w etime (some c)
      = ⟨EXIT_SUCCESS,
         w.streams.map (fun s =>
           if s.replay = 0 then s.file
           else if ncntf_event_isallowed s.rules nm then
             if s.lock_ok then
               append_record s.file ((event_record (resolve_etime etime w.now) c).length + 1)
                 (recorded_timestamp etime w.now)
                 (event_record (resolve_etime etime w.now) c ++ [0]) s.append_fail
             else s.file
           else s.file),
         if w.dbus_connected then bus_fanout w.streams nm else []⟩ := by
    simp only [ncntf_event_new, h1, if_neg h2]
  rw [hres]
  constructor
  · refine List.map_congr_left fun s hsmem => ?_
    obtain ⟨hlock, happ⟩ := hok s hsmem
    by_cases hrep : s.replay = 0
    · simp [hrep]
    · by_cases hal : ncntf_event_isallowed s.rules nm = true
      · simp [hrep, hal, hlock, happ, append_record]
      · simp [hrep, hal]
  · simp only [hdbus, if_pos]
    exact bus_fanout_all_ok nm w.streams hbus

/-- A three-stream registry exercising every footprint case: `A` has
replay and admits `x`, `B` admits `x` but has replay disabled, `C` has
replay but admits only `y`. -/
def fanout_world : EventWorld :=
  ⟨[⟨s2b "A", 1, s2b "x\n", [], true, none, true⟩,
    ⟨s2b "B", 0, s2b "x\n", [], true, none, true⟩,
    ⟨s2b "C", 1, s2b "y\n", [], true, none, true⟩], 100, true⟩

theorem event_new_fanout_footprint_witness :
    (ncntf_event_new fanout_world 1000 (some (s2b "<x/>"))).files
      = fanout_world.streams.map (fun s =>
          if s.replay ≠ 0 ∧ ncntf_event_isallowed s.rules (s2b "x") = true then
            s.file ++ le32 ((event_record (resolve_etime 1000 fanout_world.now) (s2b "<x/>")).length + 1)
              ++ le64 (recorded_timestamp 1000 fanout_world.now)
              ++ (event_record (resolve_etime 1000 fanout_world.now) (s2b "<x/>") ++ [0])
          else s.file)
    ∧ (ncntf_event_new fanout_world 1000 (some (s2b "<x/>"))).bus
      = (fanout_world.streams.filter
          (fun s => ncntf_event_isallowed s.rules (s2b "x"))).map (·.name) :=
  event_new_fanout_footprint fanout_world 1000 (s2b "<x/>") (s2b "x")
    (by decide) (by decide) (by decide) (by decide) rfl

end Libnetconf
